import Mathlib

/-
Verification of the two fragments of the repository:

1. src/ttbd/ttbl/ttblc.c — the Python extension module `ttblc` exposing
   `waitid_poll()`, a zero-argument callable that issues
   `waitid(P_ALL, 0, &si, WNOHANG | WEXITED | WNOWAIT)` on a siginfo
   buffer initialized with `.si_pid = 0`, and marshals the outcome to a
   host integer: nonzero return code -> -1, success with si_pid == 0 -> 0,
   otherwise the populated si_pid.

2. src/doc/training/test_18/src/main.c and main-b.c — smoke tests that
   draw a 32-bit hardware random value, mask its low bit, and report
   PASS when the bit is set.

The C marshalling code is embedded as the pure function `waitid_poll`
over an explicit `SysResponse` (what one waitid system call returned).
The operating system's waitid primitive itself is not part of the
repository; it is modelled from its POSIX semantics as `waitidModel`,
a step function on an explicit process-table state, so that the
flag-dependent properties (non-blocking, non-destructive, which child
events are waitable) can be stated and proved about the exact flag set
the source passes (`pollFlags`).
-/

namespace TcfSpec

/-- Pending event state of one child process in the OS process table. -/
inductive ChildEvent
  | running
  | exited
  | killedBySignal
  | stopped
  | continued
deriving DecidableEq

/-- One entry of the caller's child-process table: the child's pid and
its pending event (if any). -/
structure Child where
  pid : Nat
  event : ChildEvent
deriving DecidableEq

/-- The OS process-accounting state visible to the calling process: the
list of its children, in the order the kernel scans them. -/
structure OSState where
  children : List Child
deriving DecidableEq

/-- The first argument of waitid: P_ALL selects any child of the caller,
P_PID selects the child with a given pid. The source passes P_ALL. -/
inductive IdType
  | P_ALL
  | P_PID (pid : Nat)
deriving DecidableEq

/-- The waitid option flags relevant to this source: WNOHANG, WEXITED,
WSTOPPED, WCONTINUED, WNOWAIT. -/
structure Flags where
  wnohang : Bool
  wexited : Bool
  wstopped : Bool
  wcontinued : Bool
  wnowait : Bool
deriving DecidableEq

/-- The flag set the source passes at line 14 of ttblc.c:
WNOHANG | WEXITED | WNOWAIT (no WSTOPPED, no WCONTINUED). -/
def pollFlags : Flags := ⟨true, true, false, false, true⟩

/-- The outcome of one waitid system call as the C caller observes it:
the return code `ret`, the pid the kernel wrote into the caller's
si.si_pid field (`none` when the kernel left the buffer untouched),
and the errno value it set on failure. -/
structure SysResponse where
  ret : Int
  si_pid_written : Option Nat
  errno : Nat
deriving DecidableEq

/-- The errno value for "the calling process has no unwaited-for
children" failures of waitid. -/
def ECHILD : Nat := 10

/-- Shallow embedding of the body of `waitid_poll` in
src/ttbd/ttbl/ttblc.c as a function of the system call's observed
outcome.  The C function initializes `siginfo_t si = { .si_pid = 0 }`,
so when the kernel writes nothing the field reads 0; then
`if (r != 0) return -1; if (si.si_pid == 0) return 0; return si.si_pid;`.
The parameter `slf` embeds the unused `PyObject* self` argument. -/
def waitid_poll (slf : Nat) (resp : SysResponse) : Int :=
  let si_pid : Nat :=
    match resp.si_pid_written with
    | some p => p
    | none => 0
  if resp.ret ≠ 0 then -1
  else if si_pid = 0 then 0
  else (si_pid : Int)

/-- Whether a child is selected by the waitid id argument:
P_ALL selects every child, P_PID only the child with that pid. -/
def idMatches : IdType → Child → Bool
  | IdType.P_ALL, _ => true
  | IdType.P_PID q, c => c.pid = q

/-- Whether a child's pending event is waitable under the given flags:
WEXITED covers normal exit and death by signal, WSTOPPED covers stops,
WCONTINUED covers continues; a running child has no waitable event. -/
def eventMatches (f : Flags) : ChildEvent → Bool
  | ChildEvent.running => false
  | ChildEvent.exited => f.wexited
  | ChildEvent.killedBySignal => f.wexited
  | ChildEvent.stopped => f.wstopped
  | ChildEvent.continued => f.wcontinued

/-- The first child in the kernel's scan order that is selected by the
id argument and has an event waitable under the flags. -/
def findWaitable (idt : IdType) (f : Flags) : List Child → Option Child
  | [] => none
  | c :: cs =>
    if idMatches idt c && eventMatches f c.event then some c
    else findWaitable idt f cs

/-- What consuming a delivered event does to the child's table entry:
an exited or signal-killed child is reaped (entry removed, `none`);
a stop or continue event is cleared, the child stays. -/
def consumeEvent : ChildEvent → Option ChildEvent
  | ChildEvent.exited => none
  | ChildEvent.killedBySignal => none
  | _ => some ChildEvent.running

/-- Consume the pending event of the child with pid `p` in the table
(used by a destructive wait, i.e. when WNOWAIT is absent). -/
def consume (p : Nat) : List Child → List Child
  | [] => []
  | c :: cs =>
    if c.pid = p then
      match consumeEvent c.event with
      | none => cs
      | some e => ⟨c.pid, e⟩ :: cs
    else c :: consume p cs

/-- Outcome of one waitid call against the OS model: either it returns,
yielding the successor process-table state and the observed
`SysResponse`, or it blocks (possible only without WNOHANG). -/
inductive WaitOutcome
  | ret (st : OSState) (resp : SysResponse)
  | blocks
deriving DecidableEq

/-- OS model of the POSIX waitid call, the external primitive the
source invokes (it is not code of this repository).  If no child is
selected by the id argument the call fails with ECHILD and changes
nothing.  Otherwise, if some selected child has a waitable event, the
call reports that child's pid; with WNOWAIT the table is unchanged,
without it the event is consumed.  If no event is waitable, WNOHANG
makes the call return at once with the caller's buffer untouched;
without WNOHANG the call blocks. -/
def waitidModel (idt : IdType) (st : OSState) (f : Flags) : WaitOutcome :=
  if st.children.any (fun c => idMatches idt c) then
    match findWaitable idt f st.children with
    | some c =>
      WaitOutcome.ret (if f.wnowait then st else ⟨consume c.pid st.children⟩)
        ⟨0, some c.pid, 0⟩
    | none =>
      if f.wnohang then WaitOutcome.ret st ⟨0, none, 0⟩
      else WaitOutcome.blocks
  else
    WaitOutcome.ret st ⟨-1, none, ECHILD⟩

/-- One full invocation of `waitid_poll` against the OS model: issue
waitid with the exact arguments of line 14 of ttblc.c (P_ALL and
`pollFlags`), then marshal the observed outcome with the C body.
The `blocks` branch is unreachable because `pollFlags` has WNOHANG;
its value is arbitrary. -/
def waitid_poll_run (st : OSState) : OSState × Int :=
  match waitidModel IdType.P_ALL st pollFlags with
  | WaitOutcome.ret st2 resp => (st2, waitid_poll 0 resp)
  | WaitOutcome.blocks => (st, 0)

/-- Modulus of the uint32_t type of the value sys_rand32_get returns. -/
def UINT32_MOD : Nat := 2 ^ 32

/-- The 32-bit hardware random value, as a function of the entropy
source's raw draw `v`: the uint32_t sys_rand32_get returns. -/
def sys_rand32_val (v : Nat) : Nat := v % UINT32_MOD

/-- Shallow embedding of `run_some_test` from
src/doc/training/test_18/src/main.c (identical in main-b.c): draw the
32-bit random value and return `r & 0x1`. -/
def run_some_test (v : Nat) : Nat := sys_rand32_val v &&& 1

/-- Shallow embedding of `main` from main.c: print PASS when
run_some_test is nonzero, FAIL otherwise. -/
def main_output (v : Nat) : String :=
  if run_some_test v ≠ 0 then "PASS\n" else "FAIL\n"

/-- Zephyr tc_util.h result code for a passing test case. -/
def TC_PASS : Nat := 0

/-- Zephyr tc_util.h result code for a failing test case. -/
def TC_FAIL : Nat := 1

/-- Shallow embedding of `main` from main-b.c: report TC_PASS when
run_some_test is nonzero, TC_FAIL otherwise. -/
def main_b_result (v : Nat) : Nat :=
  if run_some_test v ≠ 0 then TC_PASS else TC_FAIL

/-- Helper: a successful waitid under WNOWAIT leaves the process table
unchanged. -/
theorem waitidModel_wnowait_frame (idt : IdType) (st : OSState) (f : Flags)
    (hw : f.wnowait = true) (st2 : OSState) (resp : SysResponse)
    (h : waitidModel idt st f = WaitOutcome.ret st2 resp) : st2 = st := by
  unfold waitidModel at h
  by_cases hany : (st.children.any fun c => idMatches idt c) = true
  · rw [if_pos hany] at h
    cases hfind : findWaitable idt f st.children with
    | some c =>
      rw [hfind, hw] at h
      simp only [if_true] at h
      cases h
      rfl
    | none =>
      rw [hfind] at h
      by_cases hh : f.wnohang = true
      · rw [hh] at h
        simp only [if_true] at h
        cases h
        rfl
      · rw [if_neg (by simpa using hh)] at h
        exact WaitOutcome.noConfusion h
  · rw [if_neg hany] at h
    cases h
    rfl

/-- Helper: the waitid model with WNOHANG never blocks. -/
theorem waitidModel_wnohang_ret (idt : IdType) (st : OSState) (f : Flags)
    (hh : f.wnohang = true) :
    waitidModel idt st f ≠ WaitOutcome.blocks := by
  unfold waitidModel
  by_cases hany : (st.children.any fun c => idMatches idt c) = true
  · rw [if_pos hany]
    cases hfind : findWaitable idt f st.children with
    | some c => simp
    | none => simp [hh]
  · rw [if_neg hany]
    exact fun h => WaitOutcome.noConfusion h

/-- Helper: if some child of the list is selected and waitable, then
findWaitable yields a selected, waitable member of the list. -/
theorem findWaitable_of_mem (idt : IdType) (f : Flags) (l : List Child)
    (h : ∃ c ∈ l, (idMatches idt c && eventMatches f c.event) = true) :
    ∃ c2, findWaitable idt f l = some c2 ∧ c2 ∈ l ∧
      (idMatches idt c2 && eventMatches f c2.event) = true := by
  induction l with
  | nil =>
    rcases h with ⟨c, hc, _⟩
    cases hc
  | cons a l ih =>
    by_cases ha : (idMatches idt a && eventMatches f a.event) = true
    · exact ⟨a, by simp [findWaitable, ha], List.mem_cons_self a l, ha⟩
    · rcases h with ⟨c, hc, hcm⟩
      rcases List.mem_cons.mp hc with rfl | hc2
      · exact absurd hcm ha
      · rcases ih ⟨c, hc2, hcm⟩ with ⟨c2, h1, h2, h3⟩
        exact ⟨c2, by simp [findWaitable, ha, h1], List.mem_cons_of_mem _ h2, h3⟩

/-- Helper: when exactly one child of the list is selected and waitable,
findWaitable yields that child. -/
theorem findWaitable_uniq (idt : IdType) (f : Flags) (l : List Child)
    (c : Child) (hc : c ∈ l)
    (hm : (idMatches idt c && eventMatches f c.event) = true)
    (hu : ∀ c2 ∈ l, (idMatches idt c2 && eventMatches f c2.event) = true →
      c2 = c) :
    findWaitable idt f l = some c := by
  induction l with
  | nil => cases hc
  | cons a l ih =>
    by_cases ha : (idMatches idt a && eventMatches f a.event) = true
    · have hac : a = c := hu a (List.mem_cons_self a l) ha
      subst hac
      simp [findWaitable, ha]
    · rcases List.mem_cons.mp hc with rfl | hc2
      · exact absurd hm ha
      · have hrest : findWaitable idt f (a :: l) = findWaitable idt f l := by
          simp [findWaitable, ha]
        rw [hrest]
        exact ih hc2 fun c2 h2 h3 => hu c2 (List.mem_cons_of_mem _ h2) h3

/-- Helper: a full poll run on a state whose kernel scan finds child
`c` with a positive pid returns `c.pid` and leaves the state alone. -/
theorem waitid_poll_run_of_find (st : OSState) (c : Child)
    (hfind : findWaitable IdType.P_ALL pollFlags st.children = some c)
    (hpos : 0 < c.pid) :
    waitid_poll_run st = (st, (c.pid : Int)) := by
  have hne : st.children ≠ [] := by
    intro h
    rw [h] at hfind
    exact Option.noConfusion hfind
  have hany : (st.children.any fun c2 => idMatches IdType.P_ALL c2) = true := by
    cases hl : st.children with
    | nil => exact absurd hl hne
    | cons a l => simp [idMatches]
  have hpid : c.pid ≠ 0 := Nat.pos_iff_ne_zero.mp hpos
  unfold waitid_poll_run waitidModel
  rw [hany, hfind]
  simp [pollFlags, waitid_poll, hpid]

/-- C1: for every successful OS query (waitid returned 0): when no child
identifier was populated (the si_pid field reads 0, i.e. the kernel
wrote nothing or wrote 0), waitid_poll returns the integer 0
(NonePending); when a child identifier p > 0 was populated, it returns
exactly p (Pending p). -/
theorem waitid_poll_success_mapping (slf : Nat) (resp : SysResponse)
    (hret : resp.ret = 0) :
    ((resp.si_pid_written = none ∨ resp.si_pid_written = some 0) →
      waitid_poll slf resp = 0) ∧
    (∀ p : Nat, 0 < p → resp.si_pid_written = some p →
      waitid_poll slf resp = (p : Int)) := by
  constructor
  · intro hw
    rcases hw with h | h <;> simp [waitid_poll, hret, h]
  · intro p hp hw
    simp [waitid_poll, hret, hw, Nat.pos_iff_ne_zero.mp hp]

/-- C1 witness: a success with pid 7 populated returns 7, a success with
the buffer untouched returns 0. -/
theorem waitid_poll_success_mapping_witness :
    waitid_poll 0 ⟨0, some 7, 0⟩ = ((7 : Nat) : Int) ∧
    waitid_poll 0 ⟨0, none, 0⟩ = 0 :=
  ⟨(waitid_poll_success_mapping 0 ⟨0, some 7, 0⟩ rfl).2 7 (by decide) rfl,
   (waitid_poll_success_mapping 0 ⟨0, none, 0⟩ rfl).1 (Or.inl rfl)⟩

/-- C2: every failing OS query (nonzero waitid return code, whatever the
errno, commonly ECHILD) makes waitid_poll return -1 (NoChildren); the
embedding is a total Int-valued function, so no exception or error
escalates to the host caller.  In particular, against the OS model, a
process with no children always gets -1 and an unchanged state. -/
theorem waitid_poll_failure_to_minus_one :
    (∀ (slf : Nat) (resp : SysResponse), resp.ret ≠ 0 →
      waitid_poll slf resp = -1) ∧
    (∀ st : OSState, st.children = [] → waitid_poll_run st = (st, -1)) := by
  constructor
  · intro slf resp h
    simp [waitid_poll, h]
  · intro st h
    cases st with
    | mk l =>
      cases h
      rfl

/-- C2 witness: a failure response with errno ECHILD yields -1, and
polling with an empty child table yields -1 with the table unchanged. -/
theorem waitid_poll_failure_to_minus_one_witness :
    waitid_poll 0 ⟨-1, none, 10⟩ = -1 ∧
    waitid_poll_run ⟨[]⟩ = (⟨[]⟩, -1) :=
  ⟨waitid_poll_failure_to_minus_one.1 0 ⟨-1, none, 10⟩ (by decide),
   waitid_poll_failure_to_minus_one.2 ⟨[]⟩ rfl⟩

/-- C3: the poll is non-destructive: the source passes WNOWAIT, the
process-table state after a poll equals the state before it, every
subsequent waitid call (any id argument, any flag set — destructive
wait-style calls included) observes exactly what it would have observed
before the poll, and repeating the poll yields the same result. -/
theorem waitid_poll_nondestructive (st : OSState) :
    pollFlags.wnowait = true ∧
    (waitid_poll_run st).1 = st ∧
    (∀ (idt : IdType) (f : Flags),
      waitidModel idt (waitid_poll_run st).1 f = waitidModel idt st f) ∧
    (waitid_poll_run (waitid_poll_run st).1).2 = (waitid_poll_run st).2 := by
  have hfst : (waitid_poll_run st).1 = st := by
    unfold waitid_poll_run
    cases hm : waitidModel IdType.P_ALL st pollFlags with
    | ret st2 resp =>
      exact waitidModel_wnowait_frame IdType.P_ALL st pollFlags rfl st2 resp hm
    | blocks => rfl
  exact ⟨rfl, hfst, fun idt f => by rw [hfst], by rw [hfst]⟩

/-- C3 witness: at a table holding one exited child of pid 7. -/
theorem waitid_poll_nondestructive_witness :
    pollFlags.wnowait = true ∧
    (waitid_poll_run ⟨[⟨7, ChildEvent.exited⟩]⟩).1
      = (⟨[⟨7, ChildEvent.exited⟩]⟩ : OSState) ∧
    (∀ (idt : IdType) (f : Flags),
      waitidModel idt (waitid_poll_run ⟨[⟨7, ChildEvent.exited⟩]⟩).1 f
        = waitidModel idt ⟨[⟨7, ChildEvent.exited⟩]⟩ f) ∧
    (waitid_poll_run (waitid_poll_run ⟨[⟨7, ChildEvent.exited⟩]⟩).1).2
      = (waitid_poll_run ⟨[⟨7, ChildEvent.exited⟩]⟩).2 :=
  waitid_poll_nondestructive ⟨[⟨7, ChildEvent.exited⟩]⟩

/-- C4: the poll never blocks: the source passes WNOHANG, and for every
OS state (children with no pending event included) the modelled call
returns at once — the blocking outcome is impossible. -/
theorem waitid_poll_never_blocks (st : OSState) :
    pollFlags.wnohang = true ∧
    waitidModel IdType.P_ALL st pollFlags ≠ WaitOutcome.blocks :=
  ⟨rfl, waitidModel_wnohang_ret IdType.P_ALL st pollFlags rfl⟩

/-- C4 witness: at a table holding one child with no pending event. -/
theorem waitid_poll_never_blocks_witness :
    pollFlags.wnohang = true ∧
    waitidModel IdType.P_ALL ⟨[⟨4, ChildEvent.running⟩]⟩ pollFlags
      ≠ WaitOutcome.blocks :=
  waitid_poll_never_blocks ⟨[⟨4, ChildEvent.running⟩]⟩

/-- C5 counterexample: a lone child with a pending stop event (pid 5) is
NOT reported as Pending — the poll returns 0 (NonePending) — because
line 14 of ttblc.c passes WEXITED without WSTOPPED or WCONTINUED; a lone
child with a pending continue event (pid 6) likewise yields 0. -/
theorem waitid_poll_stop_event_not_pending :
    (waitid_poll_run ⟨[⟨5, ChildEvent.stopped⟩]⟩).2 = 0 ∧
    (waitid_poll_run ⟨[⟨6, ChildEvent.continued⟩]⟩).2 = 0 ∧
    ¬ (0 < (waitid_poll_run ⟨[⟨5, ChildEvent.stopped⟩]⟩).2) := by
  decide

/-- C5 amended: the query targets any child of the caller (P_ALL, not a
specific pid): whenever any child, whatever its pid, has a waitable
event, the poll reports some positive pid.  But it is restricted to
children that have exited or been killed by a signal: a lone child with
a pending exit or kill event is reported with its pid, while a lone
child with a pending stop or continue event is not reported (the poll
returns 0). -/
theorem waitid_poll_targets_exited_any_child :
    (∀ st : OSState,
      (∀ c ∈ st.children, 0 < c.pid) →
      (∃ c ∈ st.children,
        c.event = ChildEvent.exited ∨ c.event = ChildEvent.killedBySignal) →
      0 < (waitid_poll_run st).2) ∧
    (∀ p : Nat, 0 < p →
      (waitid_poll_run ⟨[⟨p, ChildEvent.exited⟩]⟩).2 = (p : Int) ∧
      (waitid_poll_run ⟨[⟨p, ChildEvent.killedBySignal⟩]⟩).2 = (p : Int) ∧
      (waitid_poll_run ⟨[⟨p, ChildEvent.stopped⟩]⟩).2 = 0 ∧
      (waitid_poll_run ⟨[⟨p, ChildEvent.continued⟩]⟩).2 = 0) := by
  constructor
  · intro st hpos hex
    rcases hex with ⟨c, hmem, hev⟩
    have hm : (idMatches IdType.P_ALL c && eventMatches pollFlags c.event)
        = true := by
      rcases hev with h | h <;> simp [idMatches, eventMatches, h, pollFlags]
    rcases findWaitable_of_mem IdType.P_ALL pollFlags st.children
        ⟨c, hmem, hm⟩ with ⟨c2, hfind, hmem2, _⟩
    have hp2 : 0 < c2.pid := hpos c2 hmem2
    rw [waitid_poll_run_of_find st c2 hfind hp2]
    exact Int.natCast_pos.mpr hp2
  · intro p hp
    refine ⟨?_, ?_, ?_, ?_⟩
    · rw [waitid_poll_run_of_find ⟨[⟨p, ChildEvent.exited⟩]⟩
        ⟨p, ChildEvent.exited⟩
        (by simp [findWaitable, idMatches, eventMatches, pollFlags]) hp]
    · rw [waitid_poll_run_of_find ⟨[⟨p, ChildEvent.killedBySignal⟩]⟩
        ⟨p, ChildEvent.killedBySignal⟩
        (by simp [findWaitable, idMatches, eventMatches, pollFlags]) hp]
    · simp [waitid_poll_run, waitidModel, findWaitable, idMatches,
        eventMatches, pollFlags, waitid_poll]
    · simp [waitid_poll_run, waitidModel, findWaitable, idMatches,
        eventMatches, pollFlags, waitid_poll]

/-- C5 amended witness: a killed child (pid 9) is reported positive, an
exited child (pid 9) is reported with its pid, a stopped child is not. -/
theorem waitid_poll_targets_exited_any_child_witness :
    0 < (waitid_poll_run ⟨[⟨9, ChildEvent.killedBySignal⟩]⟩).2 ∧
    (waitid_poll_run ⟨[⟨9, ChildEvent.exited⟩]⟩).2 = ((9 : Nat) : Int) ∧
    (waitid_poll_run ⟨[⟨9, ChildEvent.stopped⟩]⟩).2 = 0 :=
  ⟨waitid_poll_targets_exited_any_child.1 ⟨[⟨9, ChildEvent.killedBySignal⟩]⟩
      (by decide) ⟨⟨9, ChildEvent.killedBySignal⟩, by decide, Or.inr rfl⟩,
   (waitid_poll_targets_exited_any_child.2 9 (by decide)).1,
   (waitid_poll_targets_exited_any_child.2 9 (by decide)).2.2.1⟩

/-- C6: idempotence while the OS state does not change: when exactly one
child event is waitable — a child with pid p > 0 has exited and no other
child has a waitable event — and no destructive reap intervenes, the
first poll returns p and the repeated poll (run on the state the first
poll left) returns p again. -/
theorem waitid_poll_idempotent (st : OSState) (c : Child)
    (hmem : c ∈ st.children) (hex : c.event = ChildEvent.exited)
    (hpos : 0 < c.pid)
    (huniq : ∀ c2 ∈ st.children,
      eventMatches pollFlags c2.event = true → c2 = c) :
    (waitid_poll_run st).2 = (c.pid : Int) ∧
    (waitid_poll_run (waitid_poll_run st).1).2 = (c.pid : Int) := by
  have hm : (idMatches IdType.P_ALL c && eventMatches pollFlags c.event)
      = true := by
    simp [idMatches, eventMatches, hex, pollFlags]
  have hfind := findWaitable_uniq IdType.P_ALL pollFlags st.children c hmem hm
    (fun c2 h2 h3 => huniq c2 h2 ((Bool.and_eq_true _ _).mp h3).2)
  have hrun := waitid_poll_run_of_find st c hfind hpos
  constructor
  · rw [hrun]
  · have h1 : (waitid_poll_run st).1 = st := by rw [hrun]
    rw [h1, hrun]

/-- C6 witness: a table with a running child (pid 3) and one exited
child (pid 7): the first and the repeated poll both return 7. -/
theorem waitid_poll_idempotent_witness :
    (waitid_poll_run ⟨[⟨3, ChildEvent.running⟩, ⟨7, ChildEvent.exited⟩]⟩).2
      = ((7 : Nat) : Int) ∧
    (waitid_poll_run (waitid_poll_run
        ⟨[⟨3, ChildEvent.running⟩, ⟨7, ChildEvent.exited⟩]⟩).1).2
      = ((7 : Nat) : Int) :=
  waitid_poll_idempotent ⟨[⟨3, ChildEvent.running⟩, ⟨7, ChildEvent.exited⟩]⟩
    ⟨7, ChildEvent.exited⟩ (by decide) rfl (by decide) (by decide)

/-- C7: for every 32-bit value v from the random source, run_some_test
returns v AND 1 (hence 0 or 1), main.c prints PASS exactly when the low
bit is set (v odd) and FAIL otherwise, and main-b.c reports TC_PASS
exactly when v is odd. -/
theorem run_some_test_low_bit (v : Nat) (hv : v < UINT32_MOD) :
    run_some_test v = v &&& 1 ∧
    (run_some_test v = 0 ∨ run_some_test v = 1) ∧
    (main_output v = "PASS\n" ↔ v % 2 = 1) ∧
    (main_b_result v = TC_PASS ↔ v % 2 = 1) := by
  have hmod : run_some_test v = v % 2 := by
    unfold run_some_test sys_rand32_val UINT32_MOD
    rw [Nat.and_one_is_mod, Nat.mod_mod_of_dvd]
    exact dvd_pow_self 2 (by norm_num)
  have hand : v &&& 1 = v % 2 := Nat.and_one_is_mod v
  refine ⟨by rw [hmod, hand], by rw [hmod]; exact Nat.mod_two_eq_zero_or_one v,
    ?_, ?_⟩
  · rcases Nat.mod_two_eq_zero_or_one v with h | h
    · have hout : main_output v = "FAIL\n" := by
        simp [main_output, hmod, h]
      rw [hout, h]
      decide
    · have hout : main_output v = "PASS\n" := by
        simp [main_output, hmod, h]
      rw [hout, h]
      decide
  · rcases Nat.mod_two_eq_zero_or_one v with h | h
    · have hout : main_b_result v = TC_FAIL := by
        simp [main_b_result, hmod, h]
      rw [hout, h]
      decide
    · have hout : main_b_result v = TC_PASS := by
        simp [main_b_result, hmod, h]
      rw [hout, h]
      decide

/-- C7 witness: at v = 5 (odd, low bit set): the test returns 1 and both
mains report PASS; the hypothesis 5 < 2^32 is discharged concretely. -/
theorem run_some_test_low_bit_witness :
    run_some_test 5 = 5 &&& 1 ∧
    (run_some_test 5 = 0 ∨ run_some_test 5 = 1) ∧
    (main_output 5 = "PASS\n" ↔ 5 % 2 = 1) ∧
    (main_b_result 5 = TC_PASS ↔ 5 % 2 = 1) :=
  run_some_test_low_bit 5 (by norm_num [UINT32_MOD])

/-- C8: the C initializer (si_pid = 0) makes an untouched buffer read 0:
a response where the kernel wrote nothing is indistinguishable from one
where it wrote 0, and a successful query with an untouched buffer is
guaranteed to return 0 (NonePending) — the discrimination never depends
on the kernel writing the field in the no-event case. -/
theorem waitid_poll_init_zero (slf : Nat) (r : Int) (e : Nat) :
    waitid_poll slf ⟨r, none, e⟩ = waitid_poll slf ⟨r, some 0, e⟩ ∧
    (r = 0 → waitid_poll slf ⟨r, none, e⟩ = 0) := by
  constructor
  · rfl
  · intro h
    simp [waitid_poll, h]

/-- C8 witness: at return code 0 with the buffer untouched. -/
theorem waitid_poll_init_zero_witness :
    waitid_poll 0 ⟨0, none, 0⟩ = waitid_poll 0 ⟨0, some 0, 0⟩ ∧
    waitid_poll 0 ⟨0, none, 0⟩ = 0 :=
  ⟨(waitid_poll_init_zero 0 0 0).1, (waitid_poll_init_zero 0 0 0).2 rfl⟩

/-- C9: every nonzero return code maps to -1 uniformly: the result is -1
whatever the errno, and two failures differing only in errno (for
example EINVAL instead of ECHILD) are indistinguishable to the caller. -/
theorem waitid_poll_error_uniform (slf : Nat) (r : Int) (w : Option Nat)
    (e1 e2 : Nat) (h : r ≠ 0) :
    waitid_poll slf ⟨r, w, e1⟩ = -1 ∧
    waitid_poll slf ⟨r, w, e1⟩ = waitid_poll slf ⟨r, w, e2⟩ := by
  constructor
  · simp [waitid_poll, h]
  · rfl

/-- C9 witness: errno EINVAL (22) and errno ECHILD (10) both yield -1. -/
theorem waitid_poll_error_uniform_witness :
    waitid_poll 0 ⟨-1, none, 22⟩ = -1 ∧
    waitid_poll 0 ⟨-1, none, 22⟩ = waitid_poll 0 ⟨-1, none, 10⟩ :=
  waitid_poll_error_uniform 0 (-1) none 22 10 (by decide)

/-- C10: determinism in the OS response: the returned integer is a
function of the query's return code and populated pid field alone — two
invocations observing identical responses return equal integers, with no
dependence on the unused self argument or any other state (errno
included). -/
theorem waitid_poll_deterministic (s1 s2 : Nat) (r1 r2 : SysResponse)
    (hret : r1.ret = r2.ret) (hw : r1.si_pid_written = r2.si_pid_written) :
    waitid_poll s1 r1 = waitid_poll s2 r2 := by
  unfold waitid_poll
  rw [hret, hw]

/-- C10 witness: different self values and different errno values, same
return code and pid field: equal results. -/
theorem waitid_poll_deterministic_witness :
    waitid_poll 1 ⟨0, some 4, 0⟩ = waitid_poll 2 ⟨0, some 4, 99⟩ :=
  waitid_poll_deterministic 1 2 ⟨0, some 4, 0⟩ ⟨0, some 4, 99⟩ rfl rfl

end TcfSpec
